import Mathlib

/-!
Shallow embedding of the courierInfo program (src/main.go).

The program reads a CSV file of trip records, parses the coordinate fields at
column indices 9 and 12 with getLatLong, and accumulates map markers (and, in
line mode, connecting paths) into a rendering context.  The file system, the
CSV reader and the rendering/imaging libraries are external collaborators: the
loop body of markLocations is modelled over the already-parsed list of CSV
records, and the rendering context is modelled as the lists of markers and
paths added to it.  Go float64 values are modelled by GoFloat: exact rationals
for finite values together with the special values recognised by
strconv.ParseFloat (infinities and NaN); binary rounding of decimal literals
is not modelled, and neither are the hexadecimal float forms, which the
program's inputs never use.  Go's runtime index-out-of-range panic is modelled
by the GoPanic error of the accumulator.
-/

/-- Decidable equality of Except results, used to evaluate the model on
concrete inputs. -/
instance exceptDecEq {ε α : Type} [DecidableEq ε] [DecidableEq α] :
    DecidableEq (Except ε α) := fun a b =>
  match a, b with
  | .error e, .error f =>
    if h : e = f then .isTrue (by rw [h])
    else .isFalse (fun c => h (Except.error.inj c))
  | .ok x, .ok y =>
    if h : x = y then .isTrue (by rw [h])
    else .isFalse (fun c => h (Except.ok.inj c))
  | .error e, .ok y => .isFalse (fun c => Except.noConfusion c)
  | .ok x, .error f => .isFalse (fun c => Except.noConfusion c)

/-- Boundary constant SouthernmostPoint = 94.972778 from src/main.go. -/
def SouthernmostPoint : ℚ := mkRat 94972778 1000000

/-- Boundary constant NorthernmostPoint = 141.019444 from src/main.go. -/
def NorthernmostPoint : ℚ := mkRat 141019444 1000000

/-- Boundary constant WesternmostPoint = 6.075 from src/main.go. -/
def WesternmostPoint : ℚ := mkRat 6075 1000

/-- Boundary constant EasternmostPoint = -11.0075 from src/main.go. -/
def EasternmostPoint : ℚ := mkRat (-110075) 10000

/-- Model of a Go float64 value: an exact rational for finite values, plus
the IEEE special values that strconv.ParseFloat can produce. -/
inductive GoFloat where
  | finite (q : ℚ)
  | posInf
  | negInf
  | nan
deriving DecidableEq

/-- IEEE strict comparison on modelled float64 values: every comparison
involving NaN is false. -/
def GoFloat.lt : GoFloat → GoFloat → Bool
  | .nan, _ => false
  | _, .nan => false
  | .finite a, .finite b => decide (a < b)
  | .negInf, .negInf => false
  | .negInf, _ => true
  | _, .negInf => false
  | .posInf, _ => false
  | .finite _, .posInf => true

/-- IEEE non-strict comparison on modelled float64 values: every comparison
involving NaN is false. -/
def GoFloat.le : GoFloat → GoFloat → Bool
  | .nan, _ => false
  | _, .nan => false
  | .finite a, .finite b => decide (a ≤ b)
  | .negInf, _ => true
  | _, .negInf => false
  | _, .posInf => true
  | .posInf, _ => false

/-- Predicate on a coordinate component accepted by getLatLong: it is never
an infinity and, when finite, lies within [lo, hi]; NaN satisfies it because
NaN passes every IEEE range comparison. -/
def GoFloat.validCoord (lo hi : ℚ) : GoFloat → Bool
  | .finite q => decide (lo ≤ q) && decide (q ≤ hi)
  | .nan => true
  | .posInf => false
  | .negInf => false

/-- Whether a modelled float64 value is finite (neither infinite nor NaN). -/
def GoFloat.isFinite : GoFloat → Bool
  | .finite _ => true
  | _ => false

/-- Numeric value of a list of decimal digit characters, most significant
first. -/
def digitsVal (ds : List Char) : ℕ :=
  ds.foldl (fun a c => 10 * a + (c.toNat - 48)) 0

/-- Optional exponent part of a decimal float literal: its sign and decimal
magnitude; the whole remaining input must be consumed.  An absent exponent is
(false, 0). -/
def parseExponent : List Char → Option (Bool × ℕ)
  | [] => some (false, 0)
  | c :: rest =>
    if c = 'e' ∨ c = 'E' then
      let sr : Bool × List Char :=
        match rest with
        | '-' :: t => (true, t)
        | '+' :: t => (false, t)
        | t => (false, t)
      let ed := sr.2.takeWhile Char.isDigit
      let r3 := sr.2.dropWhile Char.isDigit
      if ed = [] ∨ r3 ≠ [] then none
      else some (sr.1, digitsVal ed)
    else none

/-- Unsigned decimal mantissa (digits, optionally with one dot, at least one
digit overall) followed by an optional exponent; the exact rational value is
mantissa times ten to the signed exponent. -/
def parseDecimal (cs : List Char) : Option ℚ :=
  let d1 := cs.takeWhile Char.isDigit
  let r1 := cs.dropWhile Char.isDigit
  match r1 with
  | '.' :: r2 =>
    let d2 := r2.takeWhile Char.isDigit
    let r3 := r2.dropWhile Char.isDigit
    if d1 = [] ∧ d2 = [] then none
    else
      match parseExponent r3 with
      | none => none
      | some se =>
        some (if se.1 then
            mkRat (digitsVal (d1 ++ d2)) (10 ^ d2.length * 10 ^ se.2)
          else
            mkRat (digitsVal (d1 ++ d2) * 10 ^ se.2) (10 ^ d2.length))
  | _ =>
    if d1 = [] then none
    else
      match parseExponent r1 with
      | none => none
      | some se =>
        some (if se.1 then mkRat (digitsVal d1) (10 ^ se.2)
          else mkRat (digitsVal d1 * 10 ^ se.2) 1)

/-- Lower-cased character list, for the case-insensitive special forms of
strconv.ParseFloat. -/
def lowerList (cs : List Char) : List Char := cs.map Char.toLower

/-- Model of strconv.ParseFloat(s, 64): recognises "NaN" (unsigned) and
optionally signed "Inf"/"Infinity" case-insensitively, otherwise an optionally
signed decimal literal with optional exponent; the whole string must be
consumed.  Finite values are kept as exact rationals. -/
def parseFloat (s : String) : Option GoFloat :=
  let cs := s.data
  if lowerList cs = ['n', 'a', 'n'] then some .nan
  else
    let sr : Bool × List Char :=
      match cs with
      | '-' :: r => (true, r)
      | '+' :: r => (false, r)
      | r => (false, r)
    if lowerList sr.2 = ['i', 'n', 'f'] ∨
       lowerList sr.2 = ['i', 'n', 'f', 'i', 'n', 'i', 't', 'y'] then
      some (if sr.1 then .negInf else .posInf)
    else
      match parseDecimal sr.2 with
      | none => none
      | some q => some (.finite (if sr.1 then -q else q))

/-- Model of strings.Split(s, ","): auxiliary over the character list, with
the accumulator holding the current field reversed. -/
def splitCommaAux : List Char → List Char → List String
  | [], acc => [String.mk acc.reverse]
  | c :: rest, acc =>
    if c = ',' then String.mk acc.reverse :: splitCommaAux rest []
    else splitCommaAux rest (c :: acc)

/-- Model of strings.Split(s, ",") as used by getLatLong. -/
def splitComma (s : String) : List String := splitCommaAux s.data []

/-- Model of strings.TrimSpace: drop whitespace from both ends. -/
def trimSpace (s : String) : String :=
  String.mk ((s.data.dropWhile Char.isWhitespace).reverse.dropWhile
    Char.isWhitespace).reverse

/-- Errors getLatLong can return: the two error constants of src/main.go plus
the strconv parse error that it propagates unchanged. -/
inductive LatLongError where
  | ErrLatLong
  | ErrLatLongOutOfRange
  | NumError
deriving DecidableEq

/-- The bounds check of getLatLong, exactly as written in src/main.go:
y < SouthernmostPoint || y > NorthernmostPoint || x > WesternmostPoint ||
x < EasternmostPoint, under IEEE comparison semantics. -/
def outOfRange (x y : GoFloat) : Bool :=
  GoFloat.lt y (.finite SouthernmostPoint)
    || GoFloat.lt (.finite NorthernmostPoint) y
    || GoFloat.lt (.finite WesternmostPoint) x
    || GoFloat.lt x (.finite EasternmostPoint)

/-- Model of getLatLong from src/main.go: reject the empty string, the bare
comma and the exact sentinel "-999,-999"; split on commas into exactly two
parts; parse both parts after trimming; then apply the asymmetric bounds
check. -/
def getLatLong (latlong : String) : Except LatLongError (GoFloat × GoFloat) :=
  if latlong = "" ∨ latlong = "," ∨ latlong = "-999,-999" then
    .error .ErrLatLong
  else
    match splitComma latlong with
    | [sx, sy] =>
      match parseFloat (trimSpace sx) with
      | none => .error .NumError
      | some x =>
        match parseFloat (trimSpace sy) with
        | none => .error .NumError
        | some y =>
          if outOfRange x y then
            .error .ErrLatLongOutOfRange
          else
            .ok (x, y)
    | _ => .error .ErrLatLong

/-- Whether a getLatLong result is a success. -/
def resultIsOk : Except LatLongError (GoFloat × GoFloat) → Bool
  | .ok _ => true
  | .error _ => false

/-- RGBA color, as in image/color. -/
structure RGBA where
  r : ℕ
  g : ℕ
  b : ℕ
  a : ℕ
deriving DecidableEq

/-- Marker color of the source point in markLocations. -/
def colorGreen : RGBA := ⟨0x00, 0xff, 0x00, 0xff⟩

/-- Marker color of the destination point in markLocations. -/
def colorRed : RGBA := ⟨0xff, 0, 0, 0xff⟩

/-- Path color in line mode in markLocations. -/
def colorBlack : RGBA := ⟨0x00, 0x00, 0x00, 0xff⟩

/-- A map marker: position in degrees, color and radius, as handed to the
rendering context by markLocations. -/
structure Marker where
  pos : GoFloat × GoFloat
  color : RGBA
  radius : ℚ
deriving DecidableEq

/-- A map path: point list, color and stroke width, as handed to the
rendering context by markLocations in line mode. -/
structure MapPath where
  points : List (GoFloat × GoFloat)
  color : RGBA
  width : ℚ
deriving DecidableEq

/-- Go runtime panic raised by an out-of-bounds slice index. -/
inductive GoPanic where
  | indexOutOfRange
deriving DecidableEq

/-- The observable state of the rendering context built by markLocations,
plus a ghost counter of the data rows that entered the marker-extraction
branch (the rows the accumulator examined). -/
structure AccState where
  markers : List Marker
  paths : List MapPath
  examined : ℕ
deriving DecidableEq

/-- Rendering-context state before any row is processed. -/
def initState : AccState := ⟨[], [], 0⟩

/-- Model of Go slice indexing record[i]: out of bounds is a runtime panic. -/
def listGet : List String → ℕ → Except GoPanic String
  | [], _ => .error .indexOutOfRange
  | a :: _, 0 => .ok a
  | _ :: rest, n + 1 => listGet rest n

/-- Field at index i of a record, for stating properties of rows whose
indexing is in bounds (defaults to "" out of bounds). -/
def fieldAt : List String → ℕ → String
  | [], _ => ""
  | a :: _, 0 => a
  | _ :: rest, n + 1 => fieldAt rest n

/-- Body of the marker-extraction branch of markLocations for one examined
record: index columns 9 and 12 (panicking when out of bounds), skip the row
silently when either getLatLong call fails, otherwise append the source and
destination markers and, in line mode, the connecting path. -/
def processRecord (mode : String) (record : List String) (st : AccState) :
    Except GoPanic AccState :=
  match listGet record 9 with
  | .error p => .error p
  | .ok f9 =>
    match getLatLong f9 with
    | .error _ => .ok st
    | .ok (x1, y1) =>
      match listGet record 12 with
      | .error p => .error p
      | .ok f12 =>
        match getLatLong f12 with
        | .error _ => .ok st
        | .ok (x2, y2) =>
          let st1 : AccState :=
            { st with markers := st.markers ++
                [⟨(x1, y1), colorGreen, 4⟩, ⟨(x2, y2), colorRed, 4⟩] }
          if mode = "line" then
            .ok { st1 with paths := st1.paths ++
                [⟨[(x1, y1), (x2, y2)], colorBlack, 1⟩] }
          else
            .ok st1

/-- The read loop of markLocations over the remaining records: rowCount is
incremented once per record read (the first record, the header, gets
rowCount 0 and is skipped); a record enters the marker-extraction branch
exactly when limit == 0 or rowCount < limit; the ghost examined counter is
bumped on entry to that branch.  The loop never breaks early: it runs to the
end of the record list. -/
def markLoop (limit : Int) (mode : String) :
    List (List String) → Int → AccState → Except GoPanic (AccState × Int)
  | [], rowCount, st => .ok (st, rowCount)
  | record :: rest, rowCount, st =>
    if rowCount + 1 = 0 then markLoop limit mode rest (rowCount + 1) st
    else if limit = 0 ∨ rowCount + 1 < limit then
      match processRecord mode record
          { st with examined := st.examined + 1 } with
      | .error p => .error p
      | .ok st1 => markLoop limit mode rest (rowCount + 1) st1
    else markLoop limit mode rest (rowCount + 1) st

/-- Model of markLocations from src/main.go over the list of CSV records of
the input file (the file-system prologue and the rendering library are
external): rowCount starts at -1 and the context starts empty. -/
def markLocations (limit : Int) (rows : List (List String)) (mode : String) :
    Except GoPanic (AccState × Int) :=
  markLoop limit mode rows (-1) initState

/-- Number of records that enter the marker-extraction branch when the loop
runs from a given rowCount over the given records (the loop body aside, the
branch structure of markLoop). -/
def examinedCount (limit : Int) : List (List String) → Int → ℕ
  | [], _ => 0
  | _ :: rest, rowCount =>
    if rowCount + 1 = 0 then examinedCount limit rest (rowCount + 1)
    else if limit = 0 ∨ rowCount + 1 < limit then
      examinedCount limit rest (rowCount + 1) + 1
    else examinedCount limit rest (rowCount + 1)

/-- IEEE ordering fact: a ≤ b rules out b < a, for every kind of value. -/
theorem GoFloat.lt_eq_false_of_le (a b : GoFloat)
    (h : GoFloat.le a b = true) : GoFloat.lt b a = false := by
  cases a <;> cases b <;> simp_all [GoFloat.le, GoFloat.lt]

/-- In-bounds indexing succeeds and yields the field at that index. -/
theorem listGet_ok : ∀ (l : List String) (i : ℕ), i < l.length →
    listGet l i = .ok (fieldAt l i) := by
  intro l
  induction l with
  | nil => intro i h; simp at h
  | cons a rest ih =>
    intro i h
    cases i with
    | zero => rfl
    | succ n =>
      simp only [List.length_cons, Nat.succ_lt_succ_iff] at h
      simpa [listGet, fieldAt] using ih n h

/-- Out-of-bounds indexing panics. -/
theorem listGet_err : ∀ (l : List String) (i : ℕ), l.length ≤ i →
    listGet l i = .error .indexOutOfRange := by
  intro l
  induction l with
  | nil => intro i h; rfl
  | cons a rest ih =>
    intro i h
    cases i with
    | zero => simp at h
    | succ n =>
      simp only [List.length_cons, Nat.succ_le_succ_iff] at h
      simpa [listGet] using ih n h

/-- Processing one record never changes the ghost examined counter. -/
theorem processRecord_examined (mode : String) (record : List String)
    (st st1 : AccState) (h : processRecord mode record st = .ok st1) :
    st1.examined = st.examined := by
  unfold processRecord at h
  split at h
  · exact absurd h (by simp)
  · split at h
    · simp only [Except.ok.injEq] at h
      subst h; rfl
    · split at h
      · exact absurd h (by simp)
      · split at h
        · simp only [Except.ok.injEq] at h
          subst h; rfl
        · split at h <;>
          · simp only [Except.ok.injEq] at h
            subst h; rfl

/-- The loop's returned rowCount is the starting rowCount plus the number of
records read. -/
theorem markLoop_count (limit : Int) (mode : String) :
    ∀ (rows : List (List String)) (rc : Int) (st st1 : AccState) (cnt : Int),
      markLoop limit mode rows rc st = .ok (st1, cnt) →
      cnt = rc + rows.length := by
  intro rows
  induction rows with
  | nil =>
    intro rc st st1 cnt h
    simp only [markLoop, Except.ok.injEq, Prod.mk.injEq] at h
    simp [h.2.symm]
  | cons r rest ih =>
    intro rc st st1 cnt h
    simp only [markLoop] at h
    split at h
    · have := ih (rc + 1) st st1 cnt h
      simp only [List.length_cons] at this ⊢
      push_cast at this ⊢
      omega
    · split at h
      · split at h
        · exact absurd h (by simp)
        · have := ih (rc + 1) _ st1 cnt h
          simp only [List.length_cons] at this ⊢
          push_cast at this ⊢
          omega
      · have := ih (rc + 1) st st1 cnt h
        simp only [List.length_cons] at this ⊢
        push_cast at this ⊢
        omega

/-- The loop's final examined counter is the starting one plus the number of
records that enter the marker-extraction branch. -/
theorem markLoop_examined (limit : Int) (mode : String) :
    ∀ (rows : List (List String)) (rc : Int) (st st1 : AccState) (cnt : Int),
      markLoop limit mode rows rc st = .ok (st1, cnt) →
      st1.examined = st.examined + examinedCount limit rows rc := by
  intro rows
  induction rows with
  | nil =>
    intro rc st st1 cnt h
    simp only [markLoop, Except.ok.injEq, Prod.mk.injEq] at h
    simp [← h.1, examinedCount]
  | cons r rest ih =>
    intro rc st st1 cnt h
    simp only [markLoop] at h
    simp only [examinedCount]
    split at h
    · rename_i h0
      rw [if_pos h0]
      exact ih (rc + 1) st st1 cnt h
    · rename_i h0
      rw [if_neg h0]
      split at h
      · rename_i h1
        rw [if_pos h1]
        split at h
        · exact absurd h (by simp)
        · rename_i stMid hMid
          have he := processRecord_examined _ _ _ _ hMid
          have := ih (rc + 1) _ st1 cnt h
          simp only [this, he]
          omega
      · rename_i h1
        rw [if_neg h1]
        exact ih (rc + 1) st st1 cnt h

/-- Once rowCount has reached a positive limit, no later record enters the
marker-extraction branch. -/
theorem examinedCount_of_ge (limit : Int) (hl : 0 < limit) :
    ∀ (rows : List (List String)) (rc : Int), limit ≤ rc →
      examinedCount limit rows rc = 0 := by
  intro rows
  induction rows with
  | nil => intro rc h; rfl
  | cons r rest ih =>
    intro rc h
    simp only [examinedCount]
    rw [if_neg (by omega), if_neg (by omega)]
    exact ih (rc + 1) (by omega)

/-- With a positive limit, starting from a non-negative rowCount below the
limit, at most limit - 1 - rowCount records enter the extraction branch. -/
theorem examinedCount_le (limit : Int) (hl : 0 < limit) :
    ∀ (rows : List (List String)) (rc : Int), 0 ≤ rc → rc ≤ limit - 1 →
      (examinedCount limit rows rc : Int) ≤ limit - 1 - rc := by
  intro rows
  induction rows with
  | nil => intro rc h0 h1; simp [examinedCount]; omega
  | cons r rest ih =>
    intro rc h0 h1
    simp only [examinedCount]
    rw [if_neg (by omega)]
    by_cases h2 : limit = 0 ∨ rc + 1 < limit
    · rw [if_pos h2]
      have := ih (rc + 1) (by omega) (by omega)
      push_cast
      push_cast at this
      omega
    · rw [if_neg h2]
      have := examinedCount_of_ge limit hl rest (rc + 1) (by omega)
      rw [this]
      simp
      omega

/-- With limit 0, every record after the header enters the extraction
branch. -/
theorem examinedCount_zero_limit :
    ∀ (rows : List (List String)) (rc : Int), 0 ≤ rc →
      examinedCount 0 rows rc = rows.length := by
  intro rows
  induction rows with
  | nil => intro rc h; rfl
  | cons r rest ih =>
    intro rc h
    simp only [examinedCount]
    rw [if_neg (by omega), if_pos (Or.inl trivial)]
    simp [ih (rc + 1) (by omega)]

/-- A value whose IEEE comparisons against the interval ends are both false
is a valid coordinate component: not infinite, and in [lo, hi] when finite. -/
theorem GoFloat.validCoord_of_not_lt (lo hi : ℚ) (v : GoFloat)
    (h1 : GoFloat.lt v (.finite lo) = false)
    (h2 : GoFloat.lt (.finite hi) v = false) :
    GoFloat.validCoord lo hi v = true := by
  cases v <;> simp_all [GoFloat.lt, GoFloat.validCoord]

/-- C5: for every input string that is empty, equals the bare comma ",",
equals the sentinel "-999,-999", or does not split on commas into exactly two
parts, getLatLong fails with ErrLatLong. -/
theorem getLatLong_malformed (s : String)
    (h : s = "" ∨ s = "," ∨ s = "-999,-999" ∨ (splitComma s).length ≠ 2) :
    getLatLong s = .error .ErrLatLong := by
  by_cases hb : s = "" ∨ s = "," ∨ s = "-999,-999"
  · unfold getLatLong
    rw [if_pos hb]
  · have hlen : (splitComma s).length ≠ 2 := by tauto
    unfold getLatLong
    rw [if_neg hb]
    rcases hsp : splitComma s with _ | ⟨a, _ | ⟨b, _ | ⟨c, t⟩⟩⟩
    · rfl
    · rfl
    · rw [hsp] at hlen
      simp at hlen
    · rfl

/-- C5 witness: "a,b,c" splits into three parts, hence ErrLatLong. -/
theorem getLatLong_malformed_witness :
    getLatLong "a,b,c" = .error .ErrLatLong :=
  getLatLong_malformed "a,b,c" (by decide)

/-- C9: the sentinel check of getLatLong is an exact string comparison:
variants of the sentinel with extra whitespace parse numerically and fail
with ErrLatLongOutOfRange instead of ErrLatLong, while the exact sentinel
fails with ErrLatLong. -/
theorem getLatLong_sentinel_exact :
    getLatLong "-999, -999" = .error .ErrLatLongOutOfRange ∧
    getLatLong " -999,-999" = .error .ErrLatLongOutOfRange ∧
    getLatLong "-999,-999" = .error .ErrLatLong :=
  ⟨by decide, by decide, by decide⟩

/-- C3: for every well-formed "x,y" string whose two trimmed parts parse as
floats lying inside the configured bounding box, getLatLong succeeds and
returns exactly the parsed pair, unchanged. -/
theorem getLatLong_inbounds (s sx sy : String) (x y : GoFloat)
    (hsplit : splitComma s = [sx, sy])
    (hx : parseFloat (trimSpace sx) = some x)
    (hy : parseFloat (trimSpace sy) = some y)
    (hx1 : GoFloat.le (.finite EasternmostPoint) x = true)
    (hx2 : GoFloat.le x (.finite WesternmostPoint) = true)
    (hy1 : GoFloat.le (.finite SouthernmostPoint) y = true)
    (hy2 : GoFloat.le y (.finite NorthernmostPoint) = true) :
    getLatLong s = .ok (x, y) := by
  have hne : ¬(s = "" ∨ s = "," ∨ s = "-999,-999") := by
    rintro (h | h | h)
    · subst h
      rw [show splitComma "" = [""] from by decide] at hsplit
      exact absurd hsplit (by simp)
    · subst h
      rw [show splitComma "," = ["", ""] from by decide] at hsplit
      injection hsplit with h1 htl
      rw [← h1, show parseFloat (trimSpace "") = none from by decide] at hx
      exact Option.noConfusion hx
    · subst h
      rw [show splitComma "-999,-999" = ["-999", "-999"] from by decide]
        at hsplit
      injection hsplit with h1 htl
      injection htl with h2 htl2
      rw [← h2, show parseFloat (trimSpace "-999") =
        some (GoFloat.finite (-999)) from by decide] at hy
      injection hy with hyv
      rw [← hyv] at hy1
      exact absurd hy1 (by decide)
  have e1 : GoFloat.lt y (.finite SouthernmostPoint) = false :=
    GoFloat.lt_eq_false_of_le _ _ hy1
  have e2 : GoFloat.lt (.finite NorthernmostPoint) y = false :=
    GoFloat.lt_eq_false_of_le _ _ hy2
  have e3 : GoFloat.lt (.finite WesternmostPoint) x = false :=
    GoFloat.lt_eq_false_of_le _ _ hx2
  have e4 : GoFloat.lt x (.finite EasternmostPoint) = false :=
    GoFloat.lt_eq_false_of_le _ _ hx1
  have hb : outOfRange x y = false := by
    simp [outOfRange, e1, e2, e3, e4]
  unfold getLatLong
  rw [if_neg hne, hsplit]
  simp [hx, hy, hb]

/-- C3 witness: "0,100" is in bounds and parses to exactly (0, 100). -/
theorem getLatLong_inbounds_witness :
    getLatLong "0,100" = .ok (.finite 0, .finite 100) :=
  getLatLong_inbounds "0,100" "0" "100" (.finite 0) (.finite 100)
    (by decide) (by decide) (by decide) (by decide) (by decide) (by decide)
    (by decide)

/-- C4 (amended): for every string that splits into exactly two parts whose
trimmed parts parse as floats, except the exact sentinel "-999,-999",
getLatLong fails with ErrLatLongOutOfRange exactly when y < South, y > North,
x > West or x < East under IEEE comparisons. -/
theorem getLatLong_outOfRange_iff (s sx sy : String) (x y : GoFloat)
    (hsplit : splitComma s = [sx, sy])
    (hx : parseFloat (trimSpace sx) = some x)
    (hy : parseFloat (trimSpace sy) = some y)
    (hs : s ≠ "-999,-999") :
    getLatLong s = .error .ErrLatLongOutOfRange ↔
      (GoFloat.lt y (.finite SouthernmostPoint) = true ∨
       GoFloat.lt (.finite NorthernmostPoint) y = true ∨
       GoFloat.lt (.finite WesternmostPoint) x = true ∨
       GoFloat.lt x (.finite EasternmostPoint) = true) := by
  have hne : ¬(s = "" ∨ s = "," ∨ s = "-999,-999") := by
    rintro (h | h | h)
    · subst h
      rw [show splitComma "" = [""] from by decide] at hsplit
      exact absurd hsplit (by simp)
    · subst h
      rw [show splitComma "," = ["", ""] from by decide] at hsplit
      injection hsplit with h1 htl
      rw [← h1, show parseFloat (trimSpace "") = none from by decide] at hx
      exact Option.noConfusion hx
    · exact hs h
  unfold getLatLong
  rw [if_neg hne, hsplit]
  simp only [hx, hy]
  cases hb : outOfRange x y
  · have hc := hb
    simp only [outOfRange, Bool.or_eq_false_iff] at hc
    obtain ⟨⟨⟨b1, b2⟩, b3⟩, b4⟩ := hc
    simp [hb, b1, b2, b3, b4]
  · have hc := hb
    simp only [outOfRange, Bool.or_eq_true] at hc
    simp only [hb, if_true]
    simp only [true_iff, reduceIte]
    tauto

/-- C4 counterexample: the sentinel "-999,-999" parses to y = -999, which is
below SouthernmostPoint, yet getLatLong reports ErrLatLong, not
ErrLatLongOutOfRange. -/
theorem getLatLong_outOfRange_iff_cex :
    splitComma "-999,-999" = ["-999", "-999"] ∧
    parseFloat (trimSpace "-999") = some (.finite (-999)) ∧
    GoFloat.lt (.finite (-999)) (.finite SouthernmostPoint) = true ∧
    getLatLong "-999,-999" = .error .ErrLatLong :=
  ⟨by decide, by decide, by decide, by decide⟩

/-- C4 witness: "200,100" has x = 200 > WesternmostPoint, so getLatLong
fails with ErrLatLongOutOfRange. -/
theorem getLatLong_outOfRange_iff_witness :
    getLatLong "200,100" = .error .ErrLatLongOutOfRange :=
  (getLatLong_outOfRange_iff "200,100" "200" "100" (.finite 200) (.finite 100)
    (by decide) (by decide) (by decide) (by decide)).mpr
    (Or.inr (Or.inr (Or.inl (by decide))))

/-- C7 (amended): every value returned by a successful getLatLong call is
never infinite, and lies within its configured bounds when finite; NaN
components can however be returned, because NaN passes the IEEE range
checks. -/
theorem getLatLong_ok_valid (s : String) (x y : GoFloat)
    (h : getLatLong s = .ok (x, y)) :
    GoFloat.validCoord EasternmostPoint WesternmostPoint x = true ∧
    GoFloat.validCoord SouthernmostPoint NorthernmostPoint y = true := by
  unfold getLatLong at h
  split at h
  · exact absurd h (by simp)
  · split at h
    · split at h
      · exact absurd h (by simp)
      · split at h
        · exact absurd h (by simp)
        · split at h
          · exact absurd h (by simp)
          · rename_i hcond
            simp only [Except.ok.injEq, Prod.mk.injEq] at h
            obtain ⟨hx1, hy1⟩ := h
            subst hx1
            subst hy1
            rw [Bool.not_eq_true] at hcond
            simp only [outOfRange, Bool.or_eq_false_iff] at hcond
            obtain ⟨⟨⟨b1, b2⟩, b3⟩, b4⟩ := hcond
            exact ⟨GoFloat.validCoord_of_not_lt _ _ _ b4 b3,
              GoFloat.validCoord_of_not_lt _ _ _ b1 b2⟩
    · exact absurd h (by simp)

/-- C7 counterexample: getLatLong succeeds on "0,NaN" and returns a NaN
second component, which is not finite. -/
theorem getLatLong_ok_valid_cex :
    getLatLong "0,NaN" = .ok (.finite 0, GoFloat.nan) ∧
    GoFloat.isFinite GoFloat.nan = false :=
  ⟨by decide, rfl⟩

/-- C7 witness: the values returned for "0,100" are valid coordinate
components for their respective bounds. -/
theorem getLatLong_ok_valid_witness :
    GoFloat.validCoord EasternmostPoint WesternmostPoint (.finite 0) = true ∧
    GoFloat.validCoord SouthernmostPoint NorthernmostPoint (.finite 100) =
      true :=
  getLatLong_ok_valid "0,100" (.finite 0) (.finite 100) (by decide)

/-- C1: for every record list and limit N > 0, at most N data rows enter the
marker-extraction branch (once the data-row index has reached the limit, no
further record is processed for extraction), and with limit 0 every data row
after the header is examined. -/
theorem markLocations_limit_bound (limit : Int) (rows : List (List String))
    (mode : String) (st : AccState) (cnt : Int)
    (h : markLocations limit rows mode = .ok (st, cnt)) :
    (0 < limit → (st.examined : Int) ≤ limit) ∧
    (limit = 0 → st.examined = rows.length - 1) := by
  have he := markLoop_examined limit mode rows (-1) initState st cnt h
  rw [show initState.examined = 0 from rfl, Nat.zero_add] at he
  constructor
  · intro hl
    rw [he]
    cases rows with
    | nil => simp [examinedCount]; omega
    | cons r rest =>
      have h0 : examinedCount limit (r :: rest) (-1) =
          examinedCount limit rest 0 := by
        simp only [examinedCount]
        rw [if_pos (by omega)]
        norm_num
      rw [h0]
      have := examinedCount_le limit hl rest 0 (by omega) (by omega)
      omega
  · intro h0
    subst h0
    rw [he]
    cases rows with
    | nil => rfl
    | cons r rest =>
      simp only [examinedCount, List.length_cons]
      rw [if_pos (by omega)]
      norm_num
      rw [examinedCount_zero_limit rest 0 (by omega)]

/-- C1 witness: with limit 1 on a header plus two data rows, the run
succeeds, the examined counter (0) is at most the limit, and the limit is
not 0. -/
theorem markLocations_limit_bound_witness :
    (0 < (1 : Int) → ((initState.examined : ℕ) : Int) ≤ 1) ∧
    ((1 : Int) = 0 →
      initState.examined = ([[], [], []] : List (List String)).length - 1) :=
  markLocations_limit_bound 1 [[], [], []] "plot" initState 2 (by decide)

/-- C2 (amended): markLocations returns as its row count the total number of
records in the file minus one (the number of data rows when a header is
present, -1 for an empty file): the loop reads to end of file regardless of
the limit, so the count is independent of the limit and of row validity. -/
theorem markLocations_rowCount (limit : Int) (rows : List (List String))
    (mode : String) (st : AccState) (cnt : Int)
    (h : markLocations limit rows mode = .ok (st, cnt)) :
    cnt = (rows.length : Int) - 1 := by
  have := markLoop_count limit mode rows (-1) initState st cnt h
  omega

/-- C2 counterexample: with limit 1 on a header plus five data rows, no data
row is examined (the examined counter stays 0), yet the returned row count is
5, not the number of examined rows bounded by the limit. -/
theorem markLocations_rowCount_cex :
    markLocations 1 (List.replicate 6 []) "plot" = .ok (initState, 5) ∧
    initState.examined = 0 ∧ ¬((5 : Int) ≤ 1) :=
  ⟨by decide, rfl, by decide⟩

/-- C2 witness: the count 5 returned for six records equals their number
minus one. -/
theorem markLocations_rowCount_witness :
    (5 : Int) = ((List.replicate 6 ([] : List String)).length : Int) - 1 :=
  markLocations_rowCount 1 (List.replicate 6 []) "plot" initState 5
    (by decide)

/-- C10: on an input with no records at all, markLocations succeeds and
returns row count -1, not 0: the count starts at -1 and is incremented once
per record read, including the header. -/
theorem markLocations_empty (limit : Int) (mode : String) :
    markLocations limit [] mode = .ok (initState, -1) ∧ (-1 : Int) ≠ 0 :=
  ⟨rfl, by decide⟩

/-- C6: an examined record whose origin field (column 9) or destination
field (column 12) fails to parse contributes no marker and no path (in
particular no partial origin marker) and never aborts the run: the state is
returned unchanged with no error. -/
theorem processRecord_skip (mode : String) (record : List String)
    (st : AccState) (f9 f12 : String)
    (h9 : listGet record 9 = .ok f9) (h12 : listGet record 12 = .ok f12)
    (h : resultIsOk (getLatLong f9) = false ∨
      resultIsOk (getLatLong f12) = false) :
    processRecord mode record st = .ok st := by
  unfold processRecord
  rw [h9]
  rcases hg9 : getLatLong f9 with e | p
  · simp [hg9]
  · obtain ⟨x1, y1⟩ := p
    have hr : resultIsOk (getLatLong f12) = false := by
      rcases h with h | h
      · rw [hg9] at h
        simp [resultIsOk] at h
      · exact h
    rcases hg12 : getLatLong f12 with e | p2
    · simp [hg9, h12, hg12]
    · rw [hg12] at hr
      simp [resultIsOk] at hr

/-- C6 witness: a 13-field record whose column 9 holds the unparsable
"abc,12.0" is skipped without error and without touching the state. -/
theorem processRecord_skip_witness :
    processRecord "plot"
      ["", "", "", "", "", "", "", "", "", "abc,12.0", "", "", "0,100"]
      initState = .ok initState :=
  processRecord_skip "plot"
    ["", "", "", "", "", "", "", "", "", "abc,12.0", "", "", "0,100"]
    initState "abc,12.0" "0,100" (by decide) (by decide)
    (Or.inl (by decide))

/-- C8 counterexample: a 10-field data row (fewer than 13 fields) whose
column 9 fails to parse is silently skipped: the run succeeds with no panic,
the row is counted as examined, and no marker is added. -/
theorem markLocations_short_row_cex :
    (["", "", "", "", "", "", "", "", "", "x"] : List String).length < 13 ∧
    markLocations 0 [[], ["", "", "", "", "", "", "", "", "", "x"]] "plot" =
      .ok (⟨[], [], 1⟩, 1) :=
  ⟨by decide, by decide⟩

/-- C8 (amended): for an examined record with fewer than 13 fields, the
access to column 9 is an out-of-bounds panic when the record has fewer than
10 fields, and the access to column 12 is an out-of-bounds panic when the
record has at least 10 fields and column 9 parses successfully; a record
with 10 to 12 fields whose column 9 fails to parse is silently skipped
instead. -/
theorem processRecord_short (mode : String) (record : List String)
    (st : AccState) (h13 : record.length < 13) :
    (record.length < 10 →
      processRecord mode record st = .error .indexOutOfRange) ∧
    (10 ≤ record.length →
      resultIsOk (getLatLong (fieldAt record 9)) = true →
      processRecord mode record st = .error .indexOutOfRange) := by
  constructor
  · intro h10
    unfold processRecord
    rw [listGet_err record 9 (by omega)]
  · intro h10 hok
    unfold processRecord
    rw [listGet_ok record 9 (by omega)]
    rcases hg : getLatLong (fieldAt record 9) with e | p
    · rw [hg] at hok
      simp [resultIsOk] at hok
    · obtain ⟨x1, y1⟩ := p
      simp [hg, listGet_err record 12 (by omega)]

/-- C8 witness: a 10-field record whose column 9 parses as a valid
coordinate panics on the access to column 12. -/
theorem processRecord_short_witness :
    processRecord "plot" ["", "", "", "", "", "", "", "", "", "0,100"]
      initState = .error .indexOutOfRange :=
  (processRecord_short "plot" ["", "", "", "", "", "", "", "", "", "0,100"]
    initState (by decide)).2 (by decide) (by decide)
